import Mathlib

/-!
Shallow embedding of the user-user collaborative-filtering engine of the
book-recs repository (backend/app/services/similarity.py and
backend/app/services/recommendation_service.py), together with proofs of
the specification claims about it.

Ratings and similarities stored in the database are embedded as rationals;
the Pearson correlation, whose computation takes a square root, is embedded
over the reals.
-/

namespace BookRecs

/-- Configuration of the similarity computers: MIN_OVERLAP_FOR_SIMILARITY,
SIMILARITY_SHRINKAGE_FACTOR and MAX_NEIGHBORS_PER_USER. -/
structure SimConfig where
  minOverlap : Nat
  shrinkageFactor : Nat
  maxNeighbors : Nat
deriving DecidableEq

/-- The configured defaults: min_overlap 5, shrinkage 10, max_neighbors 200. -/
def defaultSimConfig : SimConfig := ⟨5, 10, 200⟩

/-- One row of the ratings table: (user_id, book_id, rating). -/
structure RatingRow where
  user_id : Nat
  book_id : Nat
  rating : ℚ
deriving DecidableEq

/-- The rating data visible to the similarity service: the ratings table plus
each user's allow_data_for_recs flag. -/
structure RatingsDB where
  rows : List RatingRow
  allowDataForRecs : Nat → Bool

/-- SimilarityResult dataclass from similarity.py. -/
structure SimilarityResult where
  user_id : Nat
  neighbor_id : Nat
  raw_similarity : ℝ
  overlap_count : Nat
  adjusted_similarity : ℝ

/-- One persisted row of the user_similarities table (UserSimilarity model). -/
structure UserSimilarityRow where
  user_id : Nat
  neighbor_id : Nat
  similarity_score : ℝ
  overlap_count : Nat
  adjusted_similarity : ℝ

/-- Dictionary access user_ratings[book_id] on a {book_id: rating} map. -/
def ratingOf (ratings : List (Nat × ℚ)) (bookId : Nat) : ℚ :=
  (ratings.lookup bookId).getD 0

/-- SimilarityComputer._get_user_ratings: all of a user's positive ratings as a
{book_id: rating} map. -/
def getUserRatings (db : RatingsDB) (userId : Nat) : List (Nat × ℚ) :=
  (db.rows.filter (fun r => decide (r.user_id = userId ∧ 0 < r.rating))).map
    (fun r => (r.book_id, r.rating))

/-- The ratings rows scanned by SimilarityComputer._get_candidate_users: rows on
the target's books, from opted-in users other than the target, with a positive
rating. -/
def candidateRows (db : RatingsDB) (userId : Nat) (userBooks : List Nat) : List RatingRow :=
  db.rows.filter (fun r =>
    decide (r.book_id ∈ userBooks ∧ r.user_id ≠ userId ∧ 0 < r.rating) &&
      db.allowDataForRecs r.user_id)

/-- SimilarityComputer._get_candidate_users: users with at least min_overlap
qualifying rows (GROUP BY user HAVING count ≥ min_overlap). -/
def getCandidateUsers (db : RatingsDB) (userId : Nat) (userBooks : List Nat)
    (minOverlap : Nat) : List Nat :=
  (((candidateRows db userId userBooks).map RatingRow.user_id).dedup).filter
    (fun u =>
      decide (minOverlap ≤
        ((candidateRows db userId userBooks).filter (fun r => decide (r.user_id = u))).length))

/-- The rating vector [ratings[b] for b in overlap_books]. -/
def overlapVals (ratings : List (Nat × ℚ)) (overlapBooks : List Nat) : List ℚ :=
  overlapBooks.map (ratingOf ratings)

/-- np.mean of a list of values. -/
def meanOfVals (vals : List ℚ) : ℚ := vals.sum / (vals.length : ℚ)

/-- The Pearson numerator sum((u - user_mean) * (n - neighbor_mean) for u, n
in zip(user_vals, neighbor_vals)). -/
def pearsonNumerator (uVals nVals : List ℚ) (uMean nMean : ℚ) : ℚ :=
  ((uVals.zip nVals).map (fun p => (p.1 - uMean) * (p.2 - nMean))).sum

/-- The sum of squared deviations sum((v - m) ** 2 for v in vals), whose
square root is the std factor of the Pearson denominator. -/
def devSumSq (vals : List ℚ) (m : ℚ) : ℚ := (vals.map (fun v => (v - m) ^ 2)).sum

open Classical in
/-- SimilarityComputer._pearson_correlation. The user mean is taken from the
caller when supplied (compute_for_user passes the user's global mean) and is
otherwise computed over the overlap values; the neighbor mean is always
computed over the overlap values. Returns none when the overlap is empty or
either standard deviation is zero. -/
noncomputable def pearsonCorrelation (userRatings neighborRatings : List (Nat × ℚ))
    (overlapBooks : List Nat) (userMeanArg : Option ℚ) : Option ℝ :=
  if overlapBooks = [] then none
  else
    let userVals := overlapVals userRatings overlapBooks
    let neighborVals := overlapVals neighborRatings overlapBooks
    let userMean := userMeanArg.getD (meanOfVals userVals)
    let neighborMean := meanOfVals neighborVals
    let numerator := pearsonNumerator userVals neighborVals userMean neighborMean
    let userStd := Real.sqrt ((devSumSq userVals userMean : ℚ) : ℝ)
    let neighborStd := Real.sqrt ((devSumSq neighborVals neighborMean : ℚ) : ℝ)
    let denominator := userStd * neighborStd
    if denominator = 0 then none else some ((numerator : ℝ) / denominator)

/-- The user's global mean rating, np.mean(list(user_ratings.values())) in
compute_for_user. -/
def userMeanOf (db : RatingsDB) (userId : Nat) : ℚ :=
  ((getUserRatings db userId).map Prod.snd).sum / (((getUserRatings db userId).length : ℚ))

/-- The target's rated-book set, user_books = set(user_ratings.keys()). -/
def userBooksOf (db : RatingsDB) (userId : Nat) : List Nat :=
  (getUserRatings db userId).map Prod.fst

/-- The overlap user_books & set(neighbor_ratings.keys()) for one candidate. -/
def overlapBooksOf (db : RatingsDB) (userId neighborId : Nat) : List Nat :=
  (userBooksOf db userId).filter
    (fun b => decide (b ∈ (getUserRatings db neighborId).map Prod.fst))

/-- Significance weighting, adjusted = raw * overlap / (overlap + shrinkage). -/
noncomputable def adjustedSimilarity (raw : ℝ) (overlapCount shrinkage : Nat) : ℝ :=
  raw * ((overlapCount : ℝ) / ((overlapCount : ℝ) + (shrinkage : ℝ)))

open Classical in
/-- results.sort(key=adjusted_similarity, reverse=True). -/
noncomputable def sortByAdjustedDesc (results : List SimilarityResult) : List SimilarityResult :=
  results.mergeSort (fun a b => decide (b.adjusted_similarity ≤ a.adjusted_similarity))

open Classical in
/-- SimilarityComputer.compute_for_user: empty when the user has fewer than
min_overlap positive ratings; otherwise one candidate pass (overlap guard,
Pearson with the user's global mean, significance weighting), then sort by
adjusted similarity descending and truncate to max_neighbors. -/
noncomputable def computeForUser (cfg : SimConfig) (db : RatingsDB) (userId : Nat) :
    List SimilarityResult :=
  let userRatings := getUserRatings db userId
  if userRatings.length < cfg.minOverlap then []
  else
    let results := (getCandidateUsers db userId (userBooksOf db userId) cfg.minOverlap).filterMap
      (fun neighborId =>
        let overlapCount := (overlapBooksOf db userId neighborId).length
        if overlapCount < cfg.minOverlap then none
        else
          match pearsonCorrelation userRatings (getUserRatings db neighborId)
              (overlapBooksOf db userId neighborId) (some (userMeanOf db userId)) with
          | none => none
          | some rawSim =>
            some ⟨userId, neighborId, rawSim, overlapCount,
              adjustedSimilarity rawSim overlapCount cfg.shrinkageFactor⟩)
    (sortByAdjustedDesc results).take cfg.maxNeighbors

/-- Conversion of a SimilarityResult into a persisted UserSimilarity row. -/
def resultToRow (r : SimilarityResult) : UserSimilarityRow :=
  ⟨r.user_id, r.neighbor_id, r.raw_similarity, r.overlap_count, r.adjusted_similarity⟩

/-- SimilarityComputer.save_similarities acting on the user_similarities table:
returns 0 and leaves the table unchanged when results is empty; otherwise
deletes every row of results[0].user_id and appends the new rows, returning
their count. -/
def saveSimilarities (store : List UserSimilarityRow) (results : List SimilarityResult) :
    List UserSimilarityRow × Nat :=
  match results with
  | [] => (store, 0)
  | r0 :: _ =>
    ((store.filter (fun e => decide (e.user_id ≠ r0.user_id))) ++ results.map resultToRow,
      results.length)

open Classical in
/-- BatchSimilarityComputer._extract_user_similarities: one row of the cosine
similarity matrix is scanned; self-pairs and non-positive similarities are
dropped, the overlap is re-derived by intersecting the sparse matrix's
non-zero index sets and checked against min_overlap, then significance
weighting, sort, and truncation to max_neighbors. -/
noncomputable def extractUserSimilarities (cfg : SimConfig) (userId userIdx : Nat)
    (userIds : List Nat) (simRow : List ℝ) (rowIndices : List (List Nat)) :
    List SimilarityResult :=
  let userRated := rowIndices.getD userIdx []
  let results := simRow.enum.filterMap (fun p =>
    if p.1 = userIdx then none
    else if p.2 ≤ 0 then none
    else
      let neighborRated := rowIndices.getD p.1 []
      let overlapCount := (userRated.filter (fun b => decide (b ∈ neighborRated))).length
      if overlapCount < cfg.minOverlap then none
      else
        some ⟨userId, userIds.getD p.1 0, p.2, overlapCount,
          adjustedSimilarity p.2 overlapCount cfg.shrinkageFactor⟩)
  (sortByAdjustedDesc results).take cfg.maxNeighbors

/-- Python str.lower() on a string, embedded structurally over the character
list so that it evaluates inside the kernel. -/
def strLower (s : String) : String := ⟨s.data.map Char.toLower⟩

/-- BookTag model: a tag with display name and slug. -/
structure BookTag where
  name : String
  slug : String
deriving DecidableEq

/-- Book model fields used by the recommendation engine. -/
structure Book where
  id : Nat
  title : String
  author : String
  cover_url : Option String
  publication_year : Option Int
  series_name : Option String
  series_position : Option ℚ
  is_romantasy : Bool
  romantasy_confidence : ℚ
  spice_level : Option Int
  is_ya : Option Bool
  is_why_choose : Bool
  why_choose_confidence : ℚ
  tags : List BookTag
deriving DecidableEq

/-- RecommendationFilters schema. The optional trope lists and the optional
exclude_why_choose flag are guarded by Python truthiness, so None collapses to
the empty list and to false respectively. -/
structure RecommendationFilters where
  spice_min : Option Int
  spice_max : Option Int
  is_ya : Option Bool
  exclude_why_choose : Bool
  include_tropes : List String
  exclude_tropes : List String
deriving DecidableEq

/-- A fully unset filter object (all fields at their schema defaults). -/
def noFilters : RecommendationFilters := ⟨none, none, none, false, [], []⟩

/-- One persisted user_similarities row as read back by the recommendation
engine (stored similarity values are plain numeric columns). -/
structure UserSimilarityEdge where
  user_id : Nat
  neighbor_id : Nat
  similarity_score : ℚ
  overlap_count : Nat
  adjusted_similarity : ℚ
deriving DecidableEq

/-- The data visible to the recommendation engine: ratings, the book catalog
and the persisted similarity edges. -/
structure RecDB where
  ratings : List RatingRow
  books : List Book
  similarities : List UserSimilarityEdge
deriving DecidableEq

/-- ScoredBook dataclass: a candidate book with predicted rating, confidence
and its contributing (user_id, similarity, rating) triples. -/
structure ScoredBook where
  book : Book
  predicted_rating : ℚ
  confidence : ℚ
  contributing_neighbors : List (Nat × ℚ × ℚ)
  neighbor_count : Nat
  average_neighbor_rating : ℚ
deriving DecidableEq

/-- RecommendationExplanation schema. -/
structure RecommendationExplanation where
  similar_user_count : Nat
  average_neighbor_rating : ℚ
  top_shared_books : List String
  sample_explanation : String
deriving DecidableEq

/-- RecommendationResponse schema (the fields the engine populates). -/
structure RecommendationResponse where
  book_id : Nat
  title : String
  author : String
  cover_url : Option String
  publication_year : Option Int
  series_name : Option String
  series_position : Option ℚ
  spice_level : Option Int
  is_ya : Option Bool
  tags : List String
  predicted_rating : ℚ
  confidence : ℚ
  explanation : RecommendationExplanation
deriving DecidableEq

/-- db.query(Book).filter(Book.id == book_id).first(). -/
def findBook (books : List Book) (bookId : Nat) : Option Book :=
  books.find? (fun b => b.id == bookId)

/-- Whether a rating row's book exists in the catalog and is flagged
is_romantasy (the JOIN plus Book.is_romantasy condition). -/
def isRomantasyBook (books : List Book) (bookId : Nat) : Bool :=
  match findBook books bookId with
  | some b => b.is_romantasy
  | none => false

/-- RecommendationEngine._get_neighbors: the user's stored edges with positive
adjusted similarity, ordered descending, top 100, as (neighbor_id, similarity)
pairs. -/
def getNeighbors (edges : List UserSimilarityEdge) (userId : Nat) : List (Nat × ℚ) :=
  ((((edges.filter (fun e => decide (e.user_id = userId ∧ 0 < e.adjusted_similarity))).mergeSort
      (fun a b => decide (b.adjusted_similarity ≤ a.adjusted_similarity))).take 100).map
    (fun e => (e.neighbor_id, e.adjusted_similarity)))

/-- RecommendationEngine._get_read_book_ids: every rating row of the user,
including rating-0 sentinel rows. -/
def getReadBookIds (ratings : List RatingRow) (userId : Nat) : List Nat :=
  (ratings.filter (fun r => r.user_id == userId)).map RatingRow.book_id

/-- The neighbor-ratings query of _score_candidate_books: positive ratings by
the neighbors on catalog Romantasy books, excluding already-read books. -/
def neighborRatingRows (db : RecDB) (neighborIds : List Nat) (excludeBookIds : List Nat) :
    List RatingRow :=
  db.ratings.filter (fun r =>
    decide (r.user_id ∈ neighborIds ∧ 0 < r.rating ∧ r.book_id ∉ excludeBookIds) &&
      isRomantasyBook db.books r.book_id)

/-- The per-book contribution list built by the grouping loop of
_score_candidate_books: (user_id, similarity, rating) for every neighbor row
on this book whose looked-up similarity is positive. -/
def bookContributions (rows : List RatingRow) (neighbors : List (Nat × ℚ)) (bookId : Nat) :
    List (Nat × ℚ × ℚ) :=
  (rows.filter (fun r => r.book_id == bookId)).filterMap (fun r =>
    let sim := (neighbors.lookup r.user_id).getD 0
    if 0 < sim then some (r.user_id, sim, r.rating) else none)

/-- RecommendationEngine._score_candidate_books: group neighbor ratings by
book, drop books with fewer than min_neighbors_for_rec contributions, compute
the similarity-weighted average rating and the confidence heuristic, skip
books missing from the catalog, and sort by predicted rating descending. -/
def scoreCandidateBooks (db : RecDB) (neighbors : List (Nat × ℚ))
    (excludeBookIds : List Nat) (minNeighborsForRec : Nat) : List ScoredBook :=
  let rows := neighborRatingRows db (neighbors.map Prod.fst) excludeBookIds
  let scored := ((rows.map RatingRow.book_id).dedup).filterMap (fun bookId =>
    let ratings := bookContributions rows neighbors bookId
    if ratings.length < minNeighborsForRec then none
    else
      let totalWeight := (ratings.map (fun t => t.2.1)).sum
      let weightedSum := (ratings.map (fun t => t.2.1 * t.2.2)).sum
      let predictedRating := if 0 < totalWeight then weightedSum / totalWeight else 0
      let confidence := min ((ratings.length : ℚ) / 10) 1 * min (totalWeight / 2) 1
      match findBook db.books bookId with
      | none => none
      | some book =>
        some ⟨book, predictedRating, confidence, ratings, ratings.length,
          (ratings.map (fun t => t.2.2)).sum / (ratings.length : ℚ)⟩)
  scored.mergeSort (fun a b => decide (b.predicted_rating ≤ a.predicted_rating))

/-- The filter chain of RecommendationEngine._apply_filters for one book, in
source order: spice_min, spice_max, is_ya, the why-choose exclusion with its
0.5 confidence threshold, include_tropes, exclude_tropes. -/
def passesFilters (f : RecommendationFilters) (book : Book) : Bool :=
  (match f.spice_min with
   | none => true
   | some m => match book.spice_level with
     | none => false
     | some s => decide (m ≤ s)) &&
  (match f.spice_max with
   | none => true
   | some m => match book.spice_level with
     | none => false
     | some s => decide (s ≤ m)) &&
  (match f.is_ya with
   | none => true
   | some v => book.is_ya == some v) &&
  (!(f.exclude_why_choose && book.is_why_choose &&
      decide ((1 : ℚ) / 2 ≤ book.why_choose_confidence))) &&
  (f.include_tropes.isEmpty ||
    f.include_tropes.any (fun t => (book.tags.map BookTag.slug).contains (strLower t))) &&
  (f.exclude_tropes.isEmpty ||
    !(f.exclude_tropes.any (fun t => (book.tags.map BookTag.slug).contains (strLower t))))

/-- RecommendationEngine._apply_filters: keep the scored books whose book
passes every set filter. -/
def applyFilters (f : RecommendationFilters) (books : List ScoredBook) : List ScoredBook :=
  books.filter (fun sb => passesFilters f sb.book)

/-- The loop body of RecommendationEngine._apply_diversity, carrying the
per-normalized-author running counts of kept books. -/
def applyDiversityAux (limit : Nat) (counts : String → Nat) :
    List ScoredBook → List ScoredBook
  | [] => []
  | sb :: rest =>
    let author := strLower sb.book.author
    if limit ≤ counts author then applyDiversityAux limit counts rest
    else sb :: applyDiversityAux limit
      (fun a => if a = author then counts author + 1 else counts a) rest

/-- RecommendationEngine._apply_diversity: single pass in score order with all
author counts starting at zero. -/
def applyDiversity (limit : Nat) (books : List ScoredBook) : List ScoredBook :=
  applyDiversityAux limit (fun _ => 0) books

/-- Rounding to two decimal places, round(x, 2). -/
def roundTo2 (q : ℚ) : ℚ := ((round (q * 100) : ℤ) : ℚ) / 100

/-- Rounding to one decimal place, round(x, 1). -/
def roundTo1 (q : ℚ) : ℚ := ((round (q * 10) : ℤ) : ℚ) / 10

/-- RecommendationEngine._get_shared_books_with_neighbors: titles of catalog
books the user rated at least 4 that the given neighbors also rated at least
4, de-duplicated, limited to 10. -/
def getSharedBooksWithNeighbors (db : RecDB) (userId : Nat) (neighborIds : List Nat) :
    List String :=
  if neighborIds = [] then []
  else
    let userFavorites :=
      (db.ratings.filter (fun r => decide (r.user_id = userId ∧ 4 ≤ r.rating))).map
        RatingRow.book_id
    ((db.ratings.filterMap (fun r =>
        if r.user_id ∈ neighborIds ∧ 4 ≤ r.rating ∧ r.book_id ∈ userFavorites then
          (findBook db.books r.book_id).map Book.title
        else none)).dedup).take 10

/-- RecommendationEngine._generate_explanation_text. The average is rendered
from its exact rational value. -/
def generateExplanationText (sb : ScoredBook) (sharedBooks : List String) : String :=
  let count := sb.neighbor_count
  let avg := roundTo1 sb.average_neighbor_rating
  let booksText :=
    match sharedBooks with
    | [] => ""
    | [b1] => " who also loved " ++ b1
    | b1 :: b2 :: _ => " who also loved " ++ b1 ++ " and " ++ b2
  let plural := if count = 1 then "" else "s"
  toString count ++ " similar reader" ++ plural ++ booksText ++
    " rated this " ++ toString avg ++ "★ average"

/-- RecommendationEngine._to_response. -/
def toResponse (db : RecDB) (userId : Nat) (sb : ScoredBook) : RecommendationResponse :=
  let topShared :=
    getSharedBooksWithNeighbors db userId
      ((sb.contributing_neighbors.take 5).map (fun t => t.1))
  ⟨sb.book.id, sb.book.title, sb.book.author, sb.book.cover_url, sb.book.publication_year,
    sb.book.series_name, sb.book.series_position, sb.book.spice_level, sb.book.is_ya,
    sb.book.tags.map BookTag.name, roundTo2 sb.predicted_rating, roundTo2 sb.confidence,
    ⟨sb.neighbor_count, roundTo2 sb.average_neighbor_rating, topShared.take 5,
      generateExplanationText sb topShared⟩⟩

/-- The SQL ordering key comparison of the popularity query, ORDER BY
publication_year DESC: an absent year sorts first (NULLS FIRST under DESC).
True when a sorts no later than b. -/
def yearDescLE (a b : Option Int) : Bool :=
  match a, b with
  | none, _ => true
  | some _, none => false
  | some x, some y => decide (y ≤ x)

/-- The popularity ordering, ORDER BY romantasy_confidence DESC,
publication_year DESC: true when a sorts no later than b. -/
def popularOrderLE (a b : Book) : Bool :=
  decide (b.romantasy_confidence < a.romantasy_confidence) ||
    (a.romantasy_confidence == b.romantasy_confidence &&
      yearDescLE a.publication_year b.publication_year)

/-- The WHERE clauses of _get_popular_recommendations: Romantasy catalog books
the user has not read, restricted by the set filters. Under SQL NULL
semantics a NULL spice_level or is_ya fails the corresponding comparison. In
the why-choose clause the source's "not Book.is_why_choose" is Python negation
of a truthy column object, so that clause reduces to the confidence test
alone. -/
def eligiblePopularBooks (db : RecDB) (userId : Nat) (f : RecommendationFilters) :
    List Book :=
  let readBookIds := getReadBookIds db.ratings userId
  (((((db.books.filter (fun b => b.is_romantasy && decide (b.id ∉ readBookIds))).filter
    (fun b => match f.spice_min with
      | none => true
      | some m => match b.spice_level with
        | none => false
        | some s => decide (m ≤ s))).filter
    (fun b => match f.spice_max with
      | none => true
      | some m => match b.spice_level with
        | none => false
        | some s => decide (s ≤ m))).filter
    (fun b => match f.is_ya with
      | none => true
      | some v => b.is_ya == some v)).filter
    (fun b => !f.exclude_why_choose || decide (b.why_choose_confidence < (1 : ℚ) / 2)))

/-- The cold-start response for one popular book: predicted_rating and
confidence zero and the generic explanation string. -/
def mkPopularResponse (book : Book) : RecommendationResponse :=
  ⟨book.id, book.title, book.author, book.cover_url, book.publication_year,
    book.series_name, book.series_position, book.spice_level, book.is_ya,
    book.tags.map BookTag.name, 0, 0, ⟨0, 0, [], "Popular Romantasy book"⟩⟩

/-- RecommendationEngine._get_popular_recommendations: eligible books in
popularity order, paginated, mapped to zero-score responses. -/
def getPopularRecommendations (db : RecDB) (userId : Nat) (f : RecommendationFilters)
    (limit offset : Nat) : List RecommendationResponse :=
  ((((eligiblePopularBooks db userId f).mergeSort popularOrderLE).drop offset).take
    limit).map mkPopularResponse

/-- RecommendationEngine.get_recommendations: cold-start fallback when the
user has no positive stored edges or no scorable candidate, otherwise score,
filter, diversify, paginate and convert to responses. -/
def getRecommendations (db : RecDB) (userId : Nat) (f : RecommendationFilters)
    (minNeighborsForRec diversityAuthorLimit : Nat) (limit offset : Nat) :
    List RecommendationResponse :=
  let neighbors := getNeighbors db.similarities userId
  if neighbors = [] then getPopularRecommendations db userId f limit offset
  else
    let readBookIds := getReadBookIds db.ratings userId
    let scoredBooks := scoreCandidateBooks db neighbors readBookIds minNeighborsForRec
    if scoredBooks = [] then getPopularRecommendations db userId f limit offset
    else
      let diverseBooks := applyDiversity diversityAuthorLimit (applyFilters f scoredBooks)
      ((diverseBooks.drop offset).take limit).map (toResponse db userId)

/-- The total number of rating rows a user has, whatever their value (the
sentinel rating 0 included). -/
def totalRatingsCount (db : RatingsDB) (userId : Nat) : Nat :=
  (db.rows.filter (fun r => decide (r.user_id = userId))).length

/-- A ratings table in which user 1 has only two ratings. -/
def dbFew : RatingsDB := ⟨[⟨1, 1, 5⟩, ⟨1, 2, 4⟩], fun _ => true⟩

/-- A pre-existing persisted edge set for user 1. -/
noncomputable def staleStore : List UserSimilarityRow := [⟨1, 2, 1 / 2, 6, 3 / 10⟩]

/-- A similarity configuration with min_overlap lowered to 2. -/
def pairCfg : SimConfig := ⟨2, 10, 200⟩

/-- Ratings where user 1 rates books 1 and 2 identically (5) but book 3 low,
and user 2 rates books 1 and 2: user 1's values on the overlap are constant
while user 1's global mean is 11/3. -/
def dbConstOverlap : RatingsDB :=
  ⟨[⟨1, 1, 5⟩, ⟨1, 2, 5⟩, ⟨1, 3, 1⟩, ⟨2, 1, 1⟩, ⟨2, 2, 2⟩], fun _ => true⟩

/-- Ratings where candidate neighbor 2 rates every overlap book with the same
value 3. -/
def dbConstNeighbor : RatingsDB :=
  ⟨[⟨1, 1, 5⟩, ⟨1, 2, 4⟩, ⟨2, 1, 3⟩, ⟨2, 2, 3⟩], fun _ => true⟩

/-- A concrete Romantasy catalog book. -/
def bookA : Book :=
  ⟨10, "Court of Thorns", "A. Author", none, some 2020, none, none, true, 9 / 10,
    some 3, some false, false, 0, [⟨"Fae Courts", "fae"⟩]⟩

/-- A second concrete Romantasy catalog book with lower catalog confidence. -/
def bookB : Book :=
  ⟨11, "Blood Oath", "B. Writer", none, some 2018, none, none, true, 4 / 5,
    some 4, some false, false, 0, []⟩

/-- Engine data where neighbors 2 and 3 both rated book 10. -/
def recDBScored : RecDB := ⟨[⟨2, 10, 5⟩, ⟨3, 10, 4⟩], [bookA], []⟩

/-- A concrete neighbor list with similarities 1/2 and 1/4. -/
def neighborsScored : List (Nat × ℚ) := [(2, 1 / 2), (3, 1 / 4)]

/-- The scored book produced from recDBScored with neighborsScored. -/
def scoredA : ScoredBook :=
  ⟨bookA, 14 / 3, 3 / 40, [(2, 1 / 2, 5), (3, 1 / 4, 4)], 2, 9 / 2⟩

/-- A concrete filter set with every filter engaged. -/
def filtersW : RecommendationFilters :=
  ⟨some 1, some 4, some false, true, ["Fae"], ["vampires"]⟩

/-- Engine data for a cold-start user: no ratings, two catalog books, and one
stored edge with non-positive adjusted similarity. -/
def recDBCold : RecDB := ⟨[], [bookA, bookB], [⟨1, 2, -1 / 2, 6, -3 / 10⟩]⟩

/-! ### Theorems -/

/-- Every member of compute_for_user's output carries the target user's id, an
overlap count of at least min_overlap, and the Pearson value actually computed
for its neighbor. -/
theorem computeForUser_mem_elim (cfg : SimConfig) (db : RatingsDB) (userId : Nat)
    (r : SimilarityResult) (hr : r ∈ computeForUser cfg db userId) :
    r.user_id = userId ∧ cfg.minOverlap ≤ r.overlap_count ∧
      r.overlap_count = (overlapBooksOf db userId r.neighbor_id).length ∧
      pearsonCorrelation (getUserRatings db userId) (getUserRatings db r.neighbor_id)
        (overlapBooksOf db userId r.neighbor_id) (some (userMeanOf db userId)) =
        some r.raw_similarity := by
  simp only [computeForUser] at hr
  split at hr
  · simp at hr
  · have hr1 := List.mem_of_mem_take hr
    rw [sortByAdjustedDesc] at hr1
    have hr2 := (List.mergeSort_perm _ _).mem_iff.mp hr1
    obtain ⟨n, hn, hf⟩ := List.mem_filterMap.mp hr2
    split at hf
    · exact absurd hf (by simp)
    · split at hf
      · exact absurd hf (by simp)
      · next rawSim heq =>
        obtain rfl := Option.some.inj hf
        exact ⟨rfl, Nat.le_of_not_lt (by assumption), rfl, heq⟩

/-- Every member of _extract_user_similarities' output has positive raw
similarity and an overlap count of at least min_overlap. -/
theorem extractUserSimilarities_mem_elim (cfg : SimConfig) (userId userIdx : Nat)
    (userIds : List Nat) (simRow : List ℝ) (rowIndices : List (List Nat))
    (r : SimilarityResult)
    (hr : r ∈ extractUserSimilarities cfg userId userIdx userIds simRow rowIndices) :
    cfg.minOverlap ≤ r.overlap_count ∧ 0 < r.raw_similarity := by
  simp only [extractUserSimilarities] at hr
  have hr1 := List.mem_of_mem_take hr
  rw [sortByAdjustedDesc] at hr1
  have hr2 := (List.mergeSort_perm _ _).mem_iff.mp hr1
  obtain ⟨p, hp, hf⟩ := List.mem_filterMap.mp hr2
  split at hf
  · exact absurd hf (by simp)
  · split at hf
    · exact absurd hf (by simp)
    · split at hf
      · exact absurd hf (by simp)
      · obtain rfl := Option.some.inj hf
        exact ⟨Nat.le_of_not_lt (by assumption), lt_of_not_le (by assumption)⟩

/-- The positive ratings of a user are among the user's rating rows. -/
theorem length_getUserRatings_le (db : RatingsDB) (userId : Nat) :
    (getUserRatings db userId).length ≤ totalRatingsCount db userId := by
  unfold getUserRatings totalRatingsCount
  rw [List.length_map]
  have hpred : (fun r : RatingRow => decide (r.user_id = userId ∧ 0 < r.rating)) =
      (fun r : RatingRow => decide (r.user_id = userId) && decide (0 < r.rating)) := by
    funext r
    by_cases h1 : r.user_id = userId <;> by_cases h2 : 0 < r.rating <;> simp [h1, h2]
  rw [hpred, ← List.filter_filter]
  exact List.Sublist.length_le (List.Sublist.filter _ (List.filter_sublist _))

/-- C9: for every user with fewer than min_overlap (default 5) total ratings,
compute_for_user returns the empty list without raising an error. -/
theorem computeForUser_empty_of_few_ratings (cfg : SimConfig) (db : RatingsDB) (userId : Nat)
    (h : totalRatingsCount db userId < cfg.minOverlap) :
    computeForUser cfg db userId = [] := by
  have hlt : (getUserRatings db userId).length < cfg.minOverlap :=
    lt_of_le_of_lt (length_getUserRatings_le db userId) h
  simp only [computeForUser, if_pos hlt]

/-- Witness for C9: user 1 of dbFew has 2 < 5 total ratings and gets the empty
list. -/
theorem computeForUser_empty_of_few_ratings_witness :
    totalRatingsCount dbFew 1 < defaultSimConfig.minOverlap ∧
      computeForUser defaultSimConfig dbFew 1 = [] :=
  ⟨by decide, computeForUser_empty_of_few_ratings defaultSimConfig dbFew 1 (by decide)⟩

/-- C3 counterexample: for the fixed raw similarity -1 and shrinkage 10, the
adjusted similarity at overlap 5 is -1/3, strictly greater than the adjusted
similarity -20/21 at overlap 200, so the adjusted similarity is not
monotonically increasing in overlap for every fixed raw similarity. -/
theorem adjustedSimilarity_not_monotone_counterexample :
    ¬ adjustedSimilarity (-1) 5 10 ≤ adjustedSimilarity (-1) 200 10 := by
  unfold adjustedSimilarity
  norm_num

/-- C3 amended: for fixed nonnegative raw similarity the adjusted similarity
is monotonically increasing in overlap_count, and for every fixed raw
similarity it converges to the raw similarity as overlap grows without
bound. -/
theorem adjustedSimilarity_monotone_tendsto (raw : ℝ) (shrinkage : Nat) :
    (0 ≤ raw → ∀ n1 n2 : Nat, n1 ≤ n2 →
      adjustedSimilarity raw n1 shrinkage ≤ adjustedSimilarity raw n2 shrinkage) ∧
    Filter.Tendsto (fun n : Nat => adjustedSimilarity raw n shrinkage)
      Filter.atTop (nhds raw) := by
  constructor
  · intro hraw n1 n2 hle
    unfold adjustedSimilarity
    apply mul_le_mul_of_nonneg_left ?_ hraw
    rcases Nat.eq_zero_or_pos (n1 + shrinkage) with h0 | hpos
    · have hn1 : n1 = 0 := by omega
      have hs : shrinkage = 0 := by omega
      subst hn1 hs
      simp only [Nat.cast_zero, zero_add, add_zero, zero_div]
      exact div_nonneg (Nat.cast_nonneg n2) (Nat.cast_nonneg n2)
    · have hp1 : (0 : ℝ) < (n1 : ℝ) + (shrinkage : ℝ) := by
        have hcast : (0 : ℝ) < ((n1 + shrinkage : Nat) : ℝ) := Nat.cast_pos.mpr hpos
        push_cast at hcast
        linarith
      have hp2 : (0 : ℝ) < (n2 : ℝ) + (shrinkage : ℝ) := by
        have : (n1 : ℝ) ≤ (n2 : ℝ) := Nat.cast_le.mpr hle
        linarith
      rw [div_le_div_iff₀ hp1 hp2]
      have hc : (n1 : ℝ) ≤ (n2 : ℝ) := Nat.cast_le.mpr hle
      have hs : (0 : ℝ) ≤ (shrinkage : ℝ) := Nat.cast_nonneg _
      nlinarith
  · have h1 : Filter.Tendsto (fun n : Nat => ((n : ℝ) / ((n : ℝ) + (shrinkage : ℝ))))
        Filter.atTop (nhds 1) := tendsto_natCast_div_add_atTop ((shrinkage : Nat) : ℝ)
    have h2 := Filter.Tendsto.const_mul raw h1
    rw [mul_one] at h2
    exact h2

/-- Witness for C3 amended at raw 9/10, shrinkage 10, overlaps 5 and 200. -/
theorem adjustedSimilarity_monotone_tendsto_witness :
    adjustedSimilarity ((9 : ℝ) / 10) 5 10 ≤ adjustedSimilarity ((9 : ℝ) / 10) 200 10 :=
  (adjustedSimilarity_monotone_tendsto ((9 : ℝ) / 10) 10).1 (by norm_num) 5 200 (by norm_num)

/-- User 1 of dbFew has too few ratings, so compute_for_user is empty there. -/
theorem computeForUser_dbFew_eq_nil : computeForUser defaultSimConfig dbFew 1 = [] := by
  have hlt : (getUserRatings dbFew 1).length < defaultSimConfig.minOverlap := by decide
  simp only [computeForUser, if_pos hlt]

/-- Filtering twice with the same predicate filters once. -/
theorem filter_filter_self {α : Type} (p : α → Bool) (l : List α) :
    (l.filter p).filter p = l.filter p := by
  rw [List.filter_filter]
  apply List.filter_congr
  intro a _
  exact Bool.and_self (p a)

/-- C1 counterexample: with input data on which compute_for_user returns the
empty list (user 1 of dbFew), save_similarities does not perform the
delete-then-insert replace: the pre-existing edge of user 1 survives as a
stale edge instead of being deleted. -/
theorem saveSimilarities_stale_edge_counterexample :
    (saveSimilarities staleStore (computeForUser defaultSimConfig dbFew 1)).1 = staleStore ∧
      (saveSimilarities staleStore (computeForUser defaultSimConfig dbFew 1)).1 ≠
        (staleStore.filter (fun e => decide (e.user_id ≠ 1))) ++
          (computeForUser defaultSimConfig dbFew 1).map resultToRow := by
  rw [computeForUser_dbFew_eq_nil]
  refine ⟨rfl, ?_⟩
  rw [saveSimilarities]
  simp [staleStore]

/-- Unfolding of save_similarities on a non-empty result list. -/
theorem saveSimilarities_cons_eq (store : List UserSimilarityRow) (r0 : SimilarityResult)
    (rs : List SimilarityResult) :
    saveSimilarities store (r0 :: rs) =
      ((store.filter (fun e => decide (e.user_id ≠ r0.user_id))) ++
        (r0 :: rs).map resultToRow, (r0 :: rs).length) := rfl

open Classical in
/-- C1 amended: compute-then-save is idempotent (running it twice on fixed
input data leaves exactly the persisted edge set of running it once), and
save_similarities performs the delete-all-for-user-then-insert full replace
whenever the computed result list is non-empty; when it is empty the store is
left untouched, pre-existing edges of the user included. -/
theorem saveSimilarities_full_replace_idempotent (cfg : SimConfig) (db : RatingsDB)
    (userId : Nat) (store : List UserSimilarityRow) :
    saveSimilarities (saveSimilarities store (computeForUser cfg db userId)).1
        (computeForUser cfg db userId) =
      saveSimilarities store (computeForUser cfg db userId) ∧
    (saveSimilarities store (computeForUser cfg db userId)).1 =
      if computeForUser cfg db userId = [] then store
      else (store.filter (fun e => decide (e.user_id ≠ userId))) ++
        (computeForUser cfg db userId).map resultToRow := by
  have huid : ∀ r ∈ computeForUser cfg db userId, r.user_id = userId := fun r hr =>
    (computeForUser_mem_elim cfg db userId r hr).1
  rcases hres : computeForUser cfg db userId with _ | ⟨r0, rs⟩
  · exact ⟨rfl, by rw [if_pos rfl]; rfl⟩
  · have hr0 : r0.user_id = userId := huid r0 (hres ▸ List.mem_cons_self r0 rs)
    have hmapnil :
        ((r0 :: rs).map resultToRow).filter (fun e => decide (e.user_id ≠ r0.user_id)) = [] := by
      rw [List.filter_eq_nil_iff]
      intro e he
      obtain ⟨r, hr, rfl⟩ := List.mem_map.mp he
      have : r.user_id = userId := huid r (hres ▸ hr)
      simp [resultToRow, this, hr0]
    constructor
    · rw [saveSimilarities_cons_eq store r0 rs, saveSimilarities_cons_eq,
        List.filter_append, filter_filter_self, hmapnil, List.append_nil]
    · rw [saveSimilarities_cons_eq store r0 rs, if_neg (by simp), hr0]

/-- The kept-count of any one normalized author never exceeds what remains of
the limit given the running counts. -/
theorem applyDiversityAux_count_le (limit : Nat) (a : String) :
    ∀ (l : List ScoredBook) (counts : String → Nat),
      ((applyDiversityAux limit counts l).filter
        (fun sb => strLower sb.book.author == a)).length ≤ limit - counts a := by
  intro l
  induction l with
  | nil => intro counts; simp [applyDiversityAux]
  | cons sb rest ih =>
    intro counts
    rw [applyDiversityAux]
    split
    · next hge =>
      exact ih counts
    · next hlt =>
      have hcounts : counts (strLower sb.book.author) < limit := Nat.lt_of_not_le hlt
      rw [List.filter_cons]
      by_cases ha : strLower sb.book.author = a
      · subst ha
        have hrec := ih (fun x => if x = strLower sb.book.author
          then counts (strLower sb.book.author) + 1 else counts x)
        rw [if_pos rfl] at hrec
        simp only [beq_self_eq_true, if_true, List.length_cons]
        omega
      · have hne : (strLower sb.book.author == a) = false := beq_eq_false_iff_ne.mpr ha
        simp only [hne, Bool.false_eq_true, if_false]
        have hrec := ih (fun x => if x = strLower sb.book.author
          then counts (strLower sb.book.author) + 1 else counts x)
        rwa [if_neg (fun h => ha h.symm)] at hrec

/-- The diversity pass keeps a subsequence of its input. -/
theorem applyDiversityAux_sublist (limit : Nat) :
    ∀ (l : List ScoredBook) (counts : String → Nat),
      (applyDiversityAux limit counts l).Sublist l := by
  intro l
  induction l with
  | nil => intro counts; simp [applyDiversityAux]
  | cons sb rest ih =>
    intro counts
    rw [applyDiversityAux]
    split
    · exact (ih counts).cons sb
    · exact (ih _).cons₂ sb

/-- C6: the diversity limiter returns a subsequence of its input (relative
order of survivors unchanged), every normalized author keeps at most
diversity_author_limit books, and an item is kept exactly when its author's
running kept-count at that point is below the limit. -/
theorem applyDiversity_spec (limit : Nat) (books : List ScoredBook) :
    (applyDiversity limit books).Sublist books ∧
    (∀ a : String,
      ((applyDiversity limit books).filter
        (fun sb => strLower sb.book.author == a)).length ≤ limit) ∧
    (∀ (counts : String → Nat) (sb : ScoredBook) (rest : List ScoredBook),
      applyDiversityAux limit counts (sb :: rest) =
        if counts (strLower sb.book.author) < limit then
          sb :: applyDiversityAux limit
            (fun a => if a = strLower sb.book.author then counts (strLower sb.book.author) + 1
              else counts a) rest
        else applyDiversityAux limit counts rest) := by
  refine ⟨applyDiversityAux_sublist limit books _, fun a => ?_, fun counts sb rest => ?_⟩
  · have h := applyDiversityAux_count_le limit a books (fun _ => 0)
    simpa using h
  · rw [applyDiversityAux]
    by_cases h : counts (strLower sb.book.author) < limit
    · rw [if_pos h, if_neg (Nat.not_le_of_lt h)]
    · rw [if_neg h, if_pos (Nat.le_of_not_lt h)]

/-- C7: every book surviving the filter pipeline satisfies all set filters:
a known spice level within any set bound (unknown spice never passes a range
filter), is_ya equality when set, exclusion of why-choose books with
confidence at least 0.5 when requested, at least one lowercased include trope
among the tag slugs when include_tropes is set, and no lowercased exclude
trope among them. -/
theorem applyFilters_mem_spec (f : RecommendationFilters) (books : List ScoredBook) :
    ∀ sb ∈ applyFilters f books,
      (∀ m, f.spice_min = some m → ∃ s, sb.book.spice_level = some s ∧ m ≤ s) ∧
      (∀ m, f.spice_max = some m → ∃ s, sb.book.spice_level = some s ∧ s ≤ m) ∧
      (∀ v, f.is_ya = some v → sb.book.is_ya = some v) ∧
      (f.exclude_why_choose = true →
        ¬(sb.book.is_why_choose = true ∧ (1 : ℚ) / 2 ≤ sb.book.why_choose_confidence)) ∧
      (f.include_tropes ≠ [] →
        ∃ t ∈ f.include_tropes, strLower t ∈ sb.book.tags.map BookTag.slug) ∧
      (∀ t ∈ f.exclude_tropes, strLower t ∉ sb.book.tags.map BookTag.slug) := by
  intro sb hmem
  have hp : passesFilters f sb.book = true := (List.mem_filter.mp hmem).2
  rw [passesFilters] at hp
  simp only [Bool.and_eq_true] at hp
  obtain ⟨⟨⟨⟨⟨h1, h2⟩, h3⟩, h4⟩, h5⟩, h6⟩ := hp
  refine ⟨?_, ?_, ?_, ?_, ?_, ?_⟩
  · intro m hm
    rw [hm] at h1
    cases hsp : sb.book.spice_level with
    | none => rw [hsp] at h1; simp at h1
    | some s => rw [hsp] at h1; exact ⟨s, rfl, by simpa using h1⟩
  · intro m hm
    rw [hm] at h2
    cases hsp : sb.book.spice_level with
    | none => rw [hsp] at h2; simp at h2
    | some s => rw [hsp] at h2; exact ⟨s, rfl, by simpa using h2⟩
  · intro v hv
    rw [hv] at h3
    simpa using h3
  · intro hw hbad
    rw [hw, hbad.1] at h4
    simp only [Bool.true_and, Bool.not_eq_true', decide_eq_false_iff_not] at h4
    exact h4 hbad.2
  · intro hne
    rcases hor : f.include_tropes with _ | ⟨t0, ts⟩
    · exact absurd hor hne
    · rw [hor] at h5
      have hany : (t0 :: ts).any
          (fun t => (sb.book.tags.map BookTag.slug).contains (strLower t)) = true := by
        simpa using h5
      obtain ⟨t, ht, hc⟩ := List.any_eq_true.mp hany
      exact ⟨t, ht, by simpa using hc⟩
  · intro t ht hmem2
    rcases hor : f.exclude_tropes with _ | ⟨t0, ts⟩
    · rw [hor] at ht; exact absurd ht (List.not_mem_nil t)
    · rw [hor] at h6 ht
      have hnone : ((t0 :: ts).any
          (fun t => (sb.book.tags.map BookTag.slug).contains (strLower t))) = false := by
        simpa using h6
      have hxt := List.any_eq_false.mp hnone t ht
      exact hxt (by simpa using hmem2)

/-- Witness for C7: the fully engaged filter set filtersW keeps scoredA and
every filter clause holds for it. -/
theorem applyFilters_mem_spec_witness :
    scoredA ∈ applyFilters filtersW [scoredA] ∧
      ((∀ m, filtersW.spice_min = some m → ∃ s, scoredA.book.spice_level = some s ∧ m ≤ s) ∧
      (∀ m, filtersW.spice_max = some m → ∃ s, scoredA.book.spice_level = some s ∧ s ≤ m) ∧
      (∀ v, filtersW.is_ya = some v → scoredA.book.is_ya = some v) ∧
      (filtersW.exclude_why_choose = true →
        ¬(scoredA.book.is_why_choose = true ∧
            (1 : ℚ) / 2 ≤ scoredA.book.why_choose_confidence)) ∧
      (filtersW.include_tropes ≠ [] →
        ∃ t ∈ filtersW.include_tropes, strLower t ∈ scoredA.book.tags.map BookTag.slug) ∧
      (∀ t ∈ filtersW.exclude_tropes, strLower t ∉ scoredA.book.tags.map BookTag.slug)) :=
  have hkeep : applyFilters filtersW [scoredA] = [scoredA] := by
    simp [applyFilters, passesFilters, filtersW, scoredA, bookA, strLower]
  have hmem : scoredA ∈ applyFilters filtersW [scoredA] := by
    rw [hkeep]; exact List.mem_singleton_self scoredA
  ⟨hmem, applyFilters_mem_spec filtersW [scoredA] scoredA hmem⟩

/-- Every contribution kept by the grouping loop has strictly positive
similarity. -/
theorem bookContributions_pos (rows : List RatingRow) (neighbors : List (Nat × ℚ))
    (bookId : Nat) : ∀ t ∈ bookContributions rows neighbors bookId, 0 < t.2.1 := by
  intro t ht
  obtain ⟨r, hr, hf⟩ := List.mem_filterMap.mp ht
  by_cases hpos : 0 < ((neighbors.lookup r.user_id).getD 0)
  · rw [if_pos hpos] at hf
    cases hf
    exact hpos
  · rw [if_neg hpos] at hf
    exact absurd hf (by simp)

/-- The contributors kept for a book are, in order, among the users of the
rating rows on that book. -/
theorem bookContributions_users_sublist (rows : List RatingRow)
    (neighbors : List (Nat × ℚ)) (bookId : Nat) :
    ((bookContributions rows neighbors bookId).map (fun t => t.1)).Sublist
      ((rows.filter (fun r => r.book_id == bookId)).map RatingRow.user_id) := by
  rw [bookContributions]
  generalize rows.filter (fun r => r.book_id == bookId) = l
  induction l with
  | nil => simp
  | cons r rs ih =>
    rw [List.filterMap_cons]
    by_cases hpos : 0 < ((neighbors.lookup r.user_id).getD 0)
    · rw [if_pos hpos]
      simpa using ih.cons₂ r.user_id
    · rw [if_neg hpos]
      simp only [List.map_cons]
      exact ih.cons r.user_id

/-- Rating rows on one fixed book with pairwise-distinct (user, book) keys
have pairwise-distinct users. -/
theorem nodup_users_of_nodup_pairs (b : Nat) :
    ∀ l : List RatingRow,
      (l.map (fun r => (r.user_id, r.book_id))).Nodup →
      (∀ r ∈ l, r.book_id = b) → (l.map RatingRow.user_id).Nodup := by
  intro l
  induction l with
  | nil => intro _ _; simp
  | cons r rs ih =>
    intro hn hb
    simp only [List.map_cons, List.nodup_cons] at hn ⊢
    refine ⟨?_, ih hn.2 (fun x hx => hb x (List.mem_cons_of_mem _ hx))⟩
    intro hmemu
    obtain ⟨r2, hr2, hequ⟩ := List.mem_map.mp hmemu
    apply hn.1
    refine List.mem_map.mpr ⟨r2, hr2, ?_⟩
    have hb2 := hb r2 (List.mem_cons_of_mem _ hr2)
    have hb1 := hb r (List.mem_cons_self _ _)
    rw [hequ, hb2, hb1]

/-- Every element of the scorer's output comes from one grouped book: its
contribution list, length, predicted rating and confidence are exactly the
grouped values. -/
theorem scoreCandidateBooks_mem_elim (db : RecDB) (neighbors : List (Nat × ℚ))
    (excludeBookIds : List Nat) (minRec : Nat) (sb : ScoredBook)
    (hmem : sb ∈ scoreCandidateBooks db neighbors excludeBookIds minRec) :
    ∃ bookId,
      sb.contributing_neighbors =
        bookContributions (neighborRatingRows db (neighbors.map Prod.fst) excludeBookIds)
          neighbors bookId ∧
      minRec ≤ sb.contributing_neighbors.length ∧
      sb.neighbor_count = sb.contributing_neighbors.length ∧
      sb.predicted_rating =
        (if 0 < (sb.contributing_neighbors.map (fun t => t.2.1)).sum then
          (sb.contributing_neighbors.map (fun t => t.2.1 * t.2.2)).sum /
            (sb.contributing_neighbors.map (fun t => t.2.1)).sum
        else 0) ∧
      sb.confidence = min ((sb.contributing_neighbors.length : ℚ) / 10) 1 *
        min ((sb.contributing_neighbors.map (fun t => t.2.1)).sum / 2) 1 := by
  simp only [scoreCandidateBooks] at hmem
  have hmem2 := (List.mergeSort_perm _ _).mem_iff.mp hmem
  obtain ⟨bookId, hbk, hf⟩ := List.mem_filterMap.mp hmem2
  refine ⟨bookId, ?_⟩
  split at hf
  · exact absurd hf (by simp)
  · next hlen =>
    split at hf
    · exact absurd hf (by simp)
    · obtain rfl := Option.some.inj hf
      exact ⟨rfl, Nat.le_of_not_lt hlen, rfl, rfl, rfl⟩

/-- A weighted sum with positive weights stays within the bounds scaled by the
total weight. -/
theorem weighted_sum_bounds (lo hi : ℚ) :
    ∀ l : List (Nat × ℚ × ℚ), (∀ t ∈ l, 0 < t.2.1) →
      (∀ t ∈ l, lo ≤ t.2.2 ∧ t.2.2 ≤ hi) →
      lo * (l.map (fun t => t.2.1)).sum ≤ (l.map (fun t => t.2.1 * t.2.2)).sum ∧
        (l.map (fun t => t.2.1 * t.2.2)).sum ≤ hi * (l.map (fun t => t.2.1)).sum := by
  intro l
  induction l with
  | nil => intro _ _; simp
  | cons t ts ih =>
    intro hpos hb
    have hpt := hpos t (List.mem_cons_self _ _)
    have hbt := hb t (List.mem_cons_self _ _)
    have ihh := ih (fun x hx => hpos x (List.mem_cons_of_mem _ hx))
      (fun x hx => hb x (List.mem_cons_of_mem _ hx))
    simp only [List.map_cons, List.sum_cons, mul_add]
    constructor
    · nlinarith [hpt, hbt.1, ihh.1]
    · nlinarith [hpt, hbt.2, ihh.2]

/-- C4: every candidate book kept by the scorer has at least
min_neighbors_for_rec (default 2) distinct contributing neighbors, and its
predicted rating equals the similarity-weighted average of exactly those
contributing neighbors' ratings. -/
theorem scoreCandidateBooks_spec (db : RecDB) (neighbors : List (Nat × ℚ))
    (excludeBookIds : List Nat) (minRec : Nat)
    (hnodup : (db.ratings.map (fun r => (r.user_id, r.book_id))).Nodup) :
    ∀ sb ∈ scoreCandidateBooks db neighbors excludeBookIds minRec,
      minRec ≤ sb.neighbor_count ∧
      sb.neighbor_count = sb.contributing_neighbors.length ∧
      ((sb.contributing_neighbors.map (fun t => t.1)).Nodup) ∧
      sb.predicted_rating =
        (sb.contributing_neighbors.map (fun t => t.2.1 * t.2.2)).sum /
          (sb.contributing_neighbors.map (fun t => t.2.1)).sum := by
  intro sb hmem
  obtain ⟨bookId, hcon, hlen, hcount, hpred, _⟩ :=
    scoreCandidateBooks_mem_elim db neighbors excludeBookIds minRec sb hmem
  have hposall : ∀ t ∈ sb.contributing_neighbors, 0 < t.2.1 := by
    rw [hcon]; exact bookContributions_pos _ _ _
  have hnodupu : (sb.contributing_neighbors.map (fun t => t.1)).Nodup := by
    rw [hcon]
    refine List.Sublist.nodup (bookContributions_users_sublist _ _ _) ?_
    have hrows : ((neighborRatingRows db (neighbors.map Prod.fst) excludeBookIds).map
        (fun r => (r.user_id, r.book_id))).Nodup :=
      List.Sublist.nodup (List.Sublist.map _ (List.filter_sublist _)) hnodup
    refine nodup_users_of_nodup_pairs bookId _ ?_ ?_
    · exact List.Sublist.nodup (List.Sublist.map _ (List.filter_sublist _)) hrows
    · intro r hr
      have := (List.mem_filter.mp hr).2
      simpa using this
  refine ⟨hcount ▸ hlen, hcount, hnodupu, ?_⟩
  rw [hpred]
  rcases hl : sb.contributing_neighbors with _ | ⟨t0, ts⟩
  · simp
  · have hW : 0 < ((t0 :: ts).map (fun t => t.2.1)).sum := by
      apply List.sum_pos
      · intro q hq
        obtain ⟨t, ht, rfl⟩ := List.mem_map.mp hq
        exact hposall t (hl ▸ ht)
      · simp
    rw [if_pos hW]

/-- C10: for every scored candidate, all contributing similarities are
strictly positive, the predicted rating lies between the minimum and maximum
contributing neighbor rating, and the confidence lies in the unit
interval. -/
theorem scoreCandidateBooks_bounds (db : RecDB) (neighbors : List (Nat × ℚ))
    (excludeBookIds : List Nat) (minRec : Nat) (hmin : 1 ≤ minRec) :
    ∀ sb ∈ scoreCandidateBooks db neighbors excludeBookIds minRec,
      (∀ t ∈ sb.contributing_neighbors, 0 < t.2.1) ∧
      (∀ lo hi : ℚ, (∀ t ∈ sb.contributing_neighbors, lo ≤ t.2.2 ∧ t.2.2 ≤ hi) →
        lo ≤ sb.predicted_rating ∧ sb.predicted_rating ≤ hi) ∧
      0 ≤ sb.confidence ∧ sb.confidence ≤ 1 := by
  intro sb hmem
  obtain ⟨bookId, hcon, hlen, hcount, hpred, hconf⟩ :=
    scoreCandidateBooks_mem_elim db neighbors excludeBookIds minRec sb hmem
  have hposall : ∀ t ∈ sb.contributing_neighbors, 0 < t.2.1 := by
    rw [hcon]; exact bookContributions_pos _ _ _
  have hne : sb.contributing_neighbors ≠ [] := by
    intro h0
    rw [h0] at hlen
    simp at hlen
    omega
  have hW : 0 < (sb.contributing_neighbors.map (fun t => t.2.1)).sum := by
    apply List.sum_pos
    · intro q hq
      obtain ⟨t, ht, rfl⟩ := List.mem_map.mp hq
      exact hposall t ht
    · simpa using hne
  refine ⟨hposall, ?_, ?_, ?_⟩
  · intro lo hi hb
    have hws := weighted_sum_bounds lo hi sb.contributing_neighbors hposall hb
    rw [hpred, if_pos hW]
    constructor
    · rw [le_div_iff₀ hW]
      exact hws.1
    · rw [div_le_iff₀ hW]
      linarith [hws.2]
  · rw [hconf]
    have h1 : (0 : ℚ) ≤ min ((sb.contributing_neighbors.length : ℚ) / 10) 1 :=
      le_min (by positivity) zero_le_one
    have h2 : (0 : ℚ) ≤ min ((sb.contributing_neighbors.map (fun t => t.2.1)).sum / 2) 1 :=
      le_min (by positivity) zero_le_one
    exact mul_nonneg h1 h2
  · rw [hconf]
    have h1 : min ((sb.contributing_neighbors.length : ℚ) / 10) 1 ≤ 1 := min_le_right _ _
    have h2 : (0 : ℚ) ≤ min ((sb.contributing_neighbors.map (fun t => t.2.1)).sum / 2) 1 :=
      le_min (by positivity) zero_le_one
    have h3 : min ((sb.contributing_neighbors.map (fun t => t.2.1)).sum / 2) 1 ≤ 1 :=
      min_le_right _ _
    calc min ((sb.contributing_neighbors.length : ℚ) / 10) 1 *
          min ((sb.contributing_neighbors.map (fun t => t.2.1)).sum / 2) 1 ≤
        1 * min ((sb.contributing_neighbors.map (fun t => t.2.1)).sum / 2) 1 :=
          mul_le_mul_of_nonneg_right h1 h2
      _ ≤ 1 := by rw [one_mul]; exact h3

/-- Concrete evaluation of the scorer on recDBScored: book 10 is scored from
neighbors 2 and 3 with predicted rating 14/3 and confidence 3/40. -/
theorem scoreCandidateBooks_recDBScored :
    scoreCandidateBooks recDBScored neighborsScored [] 2 = [scoredA] := by
  have h1 : neighborRatingRows recDBScored (neighborsScored.map Prod.fst) [] =
      [⟨2, 10, 5⟩, ⟨3, 10, 4⟩] := by decide
  have hb32 : ((3 : Nat) == 2) = false := by decide
  have h2 : bookContributions [⟨2, 10, 5⟩, ⟨3, 10, 4⟩] neighborsScored 10 =
      [(2, 1 / 2, 5), (3, 1 / 4, 4)] := by
    norm_num [bookContributions, neighborsScored, List.lookup, List.filter, List.filterMap,
      hb32]
  have h3 : (([(⟨2, 10, 5⟩ : RatingRow), ⟨3, 10, 4⟩].map RatingRow.book_id).dedup) = [10] := by
    decide
  have hid : (bookA.id == 10) = true := by decide
  simp only [scoreCandidateBooks, h1, h3, List.filterMap_cons, List.filterMap_nil, h2]
  norm_num [findBook, recDBScored, List.find?, hid, scoredA]

/-- Witness for C4 at the concrete scorer run on recDBScored. -/
theorem scoreCandidateBooks_spec_witness :
    2 ≤ scoredA.neighbor_count ∧
      scoredA.neighbor_count = scoredA.contributing_neighbors.length ∧
      ((scoredA.contributing_neighbors.map (fun t => t.1)).Nodup) ∧
      scoredA.predicted_rating =
        (scoredA.contributing_neighbors.map (fun t => t.2.1 * t.2.2)).sum /
          (scoredA.contributing_neighbors.map (fun t => t.2.1)).sum :=
  scoreCandidateBooks_spec recDBScored neighborsScored [] 2 (by decide) scoredA
    (by rw [scoreCandidateBooks_recDBScored]; exact List.mem_singleton_self scoredA)

/-- Witness for C10 at the concrete scorer run on recDBScored. -/
theorem scoreCandidateBooks_bounds_witness :
    (∀ t ∈ scoredA.contributing_neighbors, 0 < t.2.1) ∧
      (∀ lo hi : ℚ, (∀ t ∈ scoredA.contributing_neighbors, lo ≤ t.2.2 ∧ t.2.2 ≤ hi) →
        lo ≤ scoredA.predicted_rating ∧ scoredA.predicted_rating ≤ hi) ∧
      0 ≤ scoredA.confidence ∧ scoredA.confidence ≤ 1 :=
  scoreCandidateBooks_bounds recDBScored neighborsScored [] 2 (by norm_num) scoredA
    (by rw [scoreCandidateBooks_recDBScored]; exact List.mem_singleton_self scoredA)

/-- The publication-year DESC comparison is transitive. -/
theorem yearDescLE_trans (a b c : Option Int) (hab : yearDescLE a b = true)
    (hbc : yearDescLE b c = true) : yearDescLE a c = true := by
  cases a <;> cases b <;> cases c <;> (simp [yearDescLE] at *; try omega)

/-- The publication-year DESC comparison is total. -/
theorem yearDescLE_total (a b : Option Int) : (yearDescLE a b || yearDescLE b a) = true := by
  cases a <;> cases b <;> (simp [yearDescLE]; try omega)

/-- The popularity ordering is transitive. -/
theorem popularOrderLE_trans (a b c : Book) (hab : popularOrderLE a b = true)
    (hbc : popularOrderLE b c = true) : popularOrderLE a c = true := by
  simp only [popularOrderLE, Bool.or_eq_true, Bool.and_eq_true, decide_eq_true_eq,
    beq_iff_eq] at hab hbc ⊢
  rcases hab with h1 | ⟨h1, h1y⟩ <;> rcases hbc with h2 | ⟨h2, h2y⟩
  · exact Or.inl (lt_trans h2 h1)
  · exact Or.inl (h2 ▸ h1)
  · exact Or.inl (h1 ▸ h2)
  · exact Or.inr ⟨h1.trans h2, yearDescLE_trans _ _ _ h1y h2y⟩

/-- The popularity ordering is total. -/
theorem popularOrderLE_total (a b : Book) :
    (popularOrderLE a b || popularOrderLE b a) = true := by
  simp only [popularOrderLE, Bool.or_eq_true, Bool.and_eq_true, decide_eq_true_eq,
    beq_iff_eq]
  rcases lt_trichotomy a.romantasy_confidence b.romantasy_confidence with h | h | h
  · exact Or.inr (Or.inl h)
  · have := yearDescLE_total a.publication_year b.publication_year
    rcases Bool.or_eq_true_iff.mp this with hy | hy
    · exact Or.inl (Or.inr ⟨h, hy⟩)
    · exact Or.inr (Or.inr ⟨h.symm, hy⟩)
  · exact Or.inl (Or.inl h)

/-- A user with no positive stored edge has no neighbors. -/
theorem getNeighbors_eq_nil (edges : List UserSimilarityEdge) (userId : Nat)
    (h : ∀ e ∈ edges, e.user_id = userId → ¬ 0 < e.adjusted_similarity) :
    getNeighbors edges userId = [] := by
  unfold getNeighbors
  have hfil : edges.filter
      (fun e => decide (e.user_id = userId ∧ 0 < e.adjusted_similarity)) = [] := by
    rw [List.filter_eq_nil_iff]
    intro e he
    simp only [decide_eq_true_eq, not_and]
    exact h e he
  rw [hfil, List.mergeSort_nil]
  simp

/-- C8: for a user with no stored positive-similarity edge, get_recommendations
delegates entirely to the popularity fallback; with a non-empty eligible
catalog and default filters it returns a non-empty list drawn in order from
the catalog sorted by romantasy confidence descending then publication year
descending, and every returned item has predicted_rating 0, confidence 0 and
the generic explanation. -/
theorem coldStart_spec (db : RecDB) (userId : Nat) (limit minRec divLim : Nat)
    (hedges : ∀ e ∈ db.similarities, e.user_id = userId → ¬ 0 < e.adjusted_similarity)
    (hcat : eligiblePopularBooks db userId noFilters ≠ [])
    (hlim : 1 ≤ limit) :
    getRecommendations db userId noFilters minRec divLim limit 0 =
      getPopularRecommendations db userId noFilters limit 0 ∧
    getPopularRecommendations db userId noFilters limit 0 =
      (((eligiblePopularBooks db userId noFilters).mergeSort popularOrderLE).take limit).map
        mkPopularResponse ∧
    getPopularRecommendations db userId noFilters limit 0 ≠ [] ∧
    List.Pairwise (fun a b => popularOrderLE a b = true)
      ((eligiblePopularBooks db userId noFilters).mergeSort popularOrderLE) ∧
    ∀ resp ∈ getPopularRecommendations db userId noFilters limit 0,
      resp.predicted_rating = 0 ∧ resp.confidence = 0 ∧
        resp.explanation = ⟨0, 0, [], "Popular Romantasy book"⟩ := by
  have hnb : getNeighbors db.similarities userId = [] :=
    getNeighbors_eq_nil db.similarities userId hedges
  have hpop : getPopularRecommendations db userId noFilters limit 0 =
      (((eligiblePopularBooks db userId noFilters).mergeSort popularOrderLE).take limit).map
        mkPopularResponse := by
    rw [getPopularRecommendations, List.drop_zero]
  refine ⟨?_, hpop, ?_, ?_, ?_⟩
  · simp [getRecommendations, hnb]
  · rw [hpop]
    intro hnil
    have hlen := congrArg List.length hnil
    rw [List.length_map, List.length_take, List.length_mergeSort] at hlen
    simp only [List.length_nil] at hlen
    have hpos : 0 < (eligiblePopularBooks db userId noFilters).length :=
      List.length_pos.mpr hcat
    omega
  · exact List.sorted_mergeSort popularOrderLE_trans popularOrderLE_total _
  · intro resp hresp
    rw [hpop] at hresp
    obtain ⟨b, hb, rfl⟩ := List.mem_map.mp hresp
    exact ⟨rfl, rfl, rfl⟩

/-- The eligible popular books of recDBCold for user 1 with no filters. -/
theorem eligiblePopularBooks_recDBCold :
    eligiblePopularBooks recDBCold 1 noFilters = [bookA, bookB] := by
  simp [eligiblePopularBooks, recDBCold, noFilters, getReadBookIds, bookA, bookB]

/-- Witness for C8: the cold-start user 1 of recDBCold, whose only stored edge
has non-positive adjusted similarity, receives the popularity fallback. -/
theorem coldStart_spec_witness :
    getRecommendations recDBCold 1 noFilters 2 3 20 0 =
      getPopularRecommendations recDBCold 1 noFilters 20 0 ∧
    getPopularRecommendations recDBCold 1 noFilters 20 0 =
      (((eligiblePopularBooks recDBCold 1 noFilters).mergeSort popularOrderLE).take 20).map
        mkPopularResponse ∧
    getPopularRecommendations recDBCold 1 noFilters 20 0 ≠ [] ∧
    List.Pairwise (fun a b => popularOrderLE a b = true)
      ((eligiblePopularBooks recDBCold 1 noFilters).mergeSort popularOrderLE) ∧
    ∀ resp ∈ getPopularRecommendations recDBCold 1 noFilters 20 0,
      resp.predicted_rating = 0 ∧ resp.confidence = 0 ∧
        resp.explanation = ⟨0, 0, [], "Popular Romantasy book"⟩ :=
  coldStart_spec recDBCold 1 20 2 3
    (by
      intro e he h1
      simp only [recDBCold, List.mem_singleton] at he
      subst he
      norm_num)
    (by rw [eligiblePopularBooks_recDBCold]; simp)
    (by norm_num)

open Classical in
/-- Unfolding of the Pearson correlation on a non-empty overlap. -/
theorem pearsonCorrelation_of_ne_nil (ur nr : List (Nat × ℚ)) (ob : List Nat)
    (marg : Option ℚ) (hne : ob ≠ []) :
    pearsonCorrelation ur nr ob marg =
      (if Real.sqrt ((devSumSq (overlapVals ur ob)
            (marg.getD (meanOfVals (overlapVals ur ob))) : ℚ) : ℝ) *
          Real.sqrt ((devSumSq (overlapVals nr ob) (meanOfVals (overlapVals nr ob)) : ℚ) : ℝ)
          = 0 then none
       else some ((pearsonNumerator (overlapVals ur ob) (overlapVals nr ob)
            (marg.getD (meanOfVals (overlapVals ur ob))) (meanOfVals (overlapVals nr ob)) : ℚ) /
          (Real.sqrt ((devSumSq (overlapVals ur ob)
              (marg.getD (meanOfVals (overlapVals ur ob))) : ℚ) : ℝ) *
            Real.sqrt ((devSumSq (overlapVals nr ob)
              (meanOfVals (overlapVals nr ob)) : ℚ) : ℝ)))) := by
  rw [pearsonCorrelation, if_neg hne]

/-- Squared deviations sum to a nonnegative value. -/
theorem devSumSq_nonneg (vals : List ℚ) (m : ℚ) : 0 ≤ devSumSq vals m := by
  rw [devSumSq]
  induction vals with
  | nil => simp
  | cons x xs ih =>
    simp only [List.map_cons, List.sum_cons]
    nlinarith [sq_nonneg (x - m)]

/-- A constant value list has zero squared-deviation sum about that value. -/
theorem devSumSq_eq_zero_of_const (vals : List ℚ) (m : ℚ) (h : ∀ v ∈ vals, v = m) :
    devSumSq vals m = 0 := by
  rw [devSumSq]
  induction vals with
  | nil => simp
  | cons x xs ih =>
    simp only [List.map_cons, List.sum_cons]
    rw [h x (List.mem_cons_self _ _), ih (fun v hv => h v (List.mem_cons_of_mem _ hv))]
    ring

/-- A value different from the center makes the squared-deviation sum
positive. -/
theorem devSumSq_pos (vals : List ℚ) (m x : ℚ) (hx : x ∈ vals) (hxm : x ≠ m) :
    0 < devSumSq vals m := by
  rw [devSumSq]
  induction vals with
  | nil => exact absurd hx (List.not_mem_nil x)
  | cons y ys ih =>
    simp only [List.map_cons, List.sum_cons]
    have hyssum : 0 ≤ (ys.map (fun v => (v - m) ^ 2)).sum := by
      have := devSumSq_nonneg ys m
      rwa [devSumSq] at this
    rcases List.mem_cons.mp hx with rfl | hx2
    · have hdx : x - m ≠ 0 := sub_ne_zero.mpr hxm
      have h1 : 0 < (x - m) ^ 2 := lt_of_le_of_ne (sq_nonneg _) (Ne.symm (pow_ne_zero 2 hdx))
      linarith
    · have := ih hx2
      nlinarith [sq_nonneg (y - m)]

/-- A constant list sums to its length times the constant. -/
theorem sum_const_list (c : ℚ) :
    ∀ v : List ℚ, (∀ x ∈ v, x = c) → v.sum = (v.length : ℚ) * c := by
  intro v
  induction v with
  | nil => intro _; simp
  | cons x xs ih =>
    intro h
    simp only [List.sum_cons, List.length_cons]
    rw [h x (List.mem_cons_self _ _), ih (fun y hy => h y (List.mem_cons_of_mem _ hy))]
    push_cast
    ring

/-- The mean of a non-empty constant list is that constant. -/
theorem meanOfVals_const (vals : List ℚ) (c : ℚ) (hne : vals ≠ []) (h : ∀ v ∈ vals, v = c) :
    meanOfVals vals = c := by
  have hlen : (vals.length : ℚ) ≠ 0 := by
    have := List.length_pos.mpr hne
    exact_mod_cast Nat.pos_iff_ne_zero.mp this
  rw [meanOfVals, sum_const_list c vals h, mul_comm, mul_div_assoc, div_self hlen, mul_one]

/-- Sum of a pointwise complement list. -/
theorem sum_map_const_sub (c : ℚ) (v : List ℚ) :
    (v.map (fun x => c - x)).sum = (v.length : ℚ) * c - v.sum := by
  induction v with
  | nil => simp
  | cons x xs ih =>
    simp only [List.map_cons, List.sum_cons, List.length_cons, ih]
    push_cast
    ring

/-- The mean of a pointwise complement list is the complement of the mean. -/
theorem meanOfVals_sub (c : ℚ) (v : List ℚ) (hne : v ≠ []) :
    meanOfVals (v.map (fun x => c - x)) = c - meanOfVals v := by
  have hlen : (v.length : ℚ) ≠ 0 := by
    have := List.length_pos.mpr hne
    exact_mod_cast Nat.pos_iff_ne_zero.mp this
  rw [meanOfVals, meanOfVals, sum_map_const_sub, List.length_map, sub_div, mul_comm,
    mul_div_assoc, div_self hlen, mul_one]

/-- Complementing the values and the center leaves the squared-deviation sum
unchanged. -/
theorem devSumSq_sub (c m : ℚ) (v : List ℚ) :
    devSumSq (v.map (fun x => c - x)) (c - m) = devSumSq v m := by
  rw [devSumSq, devSumSq, List.map_map]
  apply congrArg List.sum
  apply List.map_congr_left
  intro x _
  simp only [Function.comp_apply]
  ring

/-- The Pearson numerator of a list against itself is the squared-deviation
sum. -/
theorem pearsonNumerator_self (v : List ℚ) (m : ℚ) :
    pearsonNumerator v v m m = devSumSq v m := by
  rw [pearsonNumerator, devSumSq]
  induction v with
  | nil => simp
  | cons x xs ih =>
    simp only [List.zip_cons_cons, List.map_cons, List.sum_cons, ih]
    ring

/-- The Pearson numerator of a list against its pointwise complement is the
negated squared-deviation sum. -/
theorem pearsonNumerator_sub (c m : ℚ) (v : List ℚ) :
    pearsonNumerator v (v.map (fun x => c - x)) m (c - m) = -(devSumSq v m) := by
  rw [pearsonNumerator, devSumSq]
  induction v with
  | nil => simp
  | cons x xs ih =>
    simp only [List.map_cons, List.zip_cons_cons, List.sum_cons, ih]
    ring

/-- C2 amended: with the user mean computed over the overlap (the function's
default), identical non-constant overlap vectors give correlation exactly 1
and perfectly inverted ones exactly -1; a constant neighbor vector gives None
for every mean argument, and a constant user vector gives None under the
default mean; whenever the correlation computed inside compute_for_user
(which passes the user's global mean) is None, that candidate neighbor is
silently skipped. A user vector that is constant on the overlap but centered
at a different global mean does not give None (see the counterexample). -/
theorem pearson_policy_spec :
    (∀ (ur nr : List (Nat × ℚ)) (ob : List Nat), ob ≠ [] →
      (∀ b ∈ ob, ratingOf nr b = ratingOf ur b) →
      (∃ b1 ∈ ob, ∃ b2 ∈ ob, ratingOf ur b1 ≠ ratingOf ur b2) →
      pearsonCorrelation ur nr ob none = some 1) ∧
    (∀ (ur nr : List (Nat × ℚ)) (ob : List Nat) (c : ℚ), ob ≠ [] →
      (∀ b ∈ ob, ratingOf nr b = c - ratingOf ur b) →
      (∃ b1 ∈ ob, ∃ b2 ∈ ob, ratingOf ur b1 ≠ ratingOf ur b2) →
      pearsonCorrelation ur nr ob none = some (-1)) ∧
    (∀ (ur nr : List (Nat × ℚ)) (ob : List Nat) (marg : Option ℚ) (c : ℚ),
      (∀ b ∈ ob, ratingOf nr b = c) → pearsonCorrelation ur nr ob marg = none) ∧
    (∀ (ur nr : List (Nat × ℚ)) (ob : List Nat) (c : ℚ),
      (∀ b ∈ ob, ratingOf ur b = c) → pearsonCorrelation ur nr ob none = none) ∧
    (∀ (cfg : SimConfig) (db : RatingsDB) (userId nId : Nat),
      pearsonCorrelation (getUserRatings db userId) (getUserRatings db nId)
        (overlapBooksOf db userId nId) (some (userMeanOf db userId)) = none →
      ∀ r ∈ computeForUser cfg db userId, r.neighbor_id ≠ nId) := by
  refine ⟨?_, ?_, ?_, ?_, ?_⟩
  · -- identical vectors, mean over the overlap
    intro ur nr ob hne hid hnc
    rw [pearsonCorrelation_of_ne_nil ur nr ob none hne]
    have hnrv : overlapVals nr ob = overlapVals ur ob :=
      List.map_congr_left (fun b hb => hid b hb)
    rw [hnrv]
    simp only [Option.getD_none]
    obtain ⟨b1, hb1, b2, hb2, hb12⟩ := hnc
    have hx : ∃ x ∈ overlapVals ur ob, x ≠ meanOfVals (overlapVals ur ob) := by
      by_cases h1 : ratingOf ur b1 = meanOfVals (overlapVals ur ob)
      · exact ⟨ratingOf ur b2, List.mem_map_of_mem _ hb2, fun h2 => hb12 (h1.trans h2.symm)⟩
      · exact ⟨ratingOf ur b1, List.mem_map_of_mem _ hb1, h1⟩
    obtain ⟨x, hxv, hxm⟩ := hx
    have hApos : 0 < devSumSq (overlapVals ur ob) (meanOfVals (overlapVals ur ob)) :=
      devSumSq_pos _ _ x hxv hxm
    have hAr : (0 : ℝ) < ((devSumSq (overlapVals ur ob)
        (meanOfVals (overlapVals ur ob)) : ℚ) : ℝ) := by exact_mod_cast hApos
    have hsq : Real.sqrt ((devSumSq (overlapVals ur ob)
          (meanOfVals (overlapVals ur ob)) : ℚ) : ℝ) *
        Real.sqrt ((devSumSq (overlapVals ur ob)
          (meanOfVals (overlapVals ur ob)) : ℚ) : ℝ) =
        ((devSumSq (overlapVals ur ob) (meanOfVals (overlapVals ur ob)) : ℚ) : ℝ) :=
      Real.mul_self_sqrt (le_of_lt hAr)
    rw [if_neg (by rw [hsq]; exact ne_of_gt hAr)]
    rw [pearsonNumerator_self, hsq, div_self (ne_of_gt hAr)]
  · -- perfectly inverted vectors, mean over the overlap
    intro ur nr ob c hne hinv hnc
    rw [pearsonCorrelation_of_ne_nil ur nr ob none hne]
    have hvne : overlapVals ur ob ≠ [] := by
      intro h
      apply hne
      have hl := congrArg List.length h
      rw [overlapVals, List.length_map] at hl
      exact List.eq_nil_of_length_eq_zero (by simpa using hl)
    have hnrv : overlapVals nr ob = (overlapVals ur ob).map (fun x => c - x) := by
      rw [overlapVals, overlapVals, List.map_map]
      exact List.map_congr_left (fun b hb => hinv b hb)
    rw [hnrv]
    simp only [Option.getD_none]
    rw [meanOfVals_sub c _ hvne, pearsonNumerator_sub, devSumSq_sub]
    obtain ⟨b1, hb1, b2, hb2, hb12⟩ := hnc
    have hx : ∃ x ∈ overlapVals ur ob, x ≠ meanOfVals (overlapVals ur ob) := by
      by_cases h1 : ratingOf ur b1 = meanOfVals (overlapVals ur ob)
      · exact ⟨ratingOf ur b2, List.mem_map_of_mem _ hb2, fun h2 => hb12 (h1.trans h2.symm)⟩
      · exact ⟨ratingOf ur b1, List.mem_map_of_mem _ hb1, h1⟩
    obtain ⟨x, hxv, hxm⟩ := hx
    have hApos : 0 < devSumSq (overlapVals ur ob) (meanOfVals (overlapVals ur ob)) :=
      devSumSq_pos _ _ x hxv hxm
    have hAr : (0 : ℝ) < ((devSumSq (overlapVals ur ob)
        (meanOfVals (overlapVals ur ob)) : ℚ) : ℝ) := by exact_mod_cast hApos
    have hsq : Real.sqrt ((devSumSq (overlapVals ur ob)
          (meanOfVals (overlapVals ur ob)) : ℚ) : ℝ) *
        Real.sqrt ((devSumSq (overlapVals ur ob)
          (meanOfVals (overlapVals ur ob)) : ℚ) : ℝ) =
        ((devSumSq (overlapVals ur ob) (meanOfVals (overlapVals ur ob)) : ℚ) : ℝ) :=
      Real.mul_self_sqrt (le_of_lt hAr)
    rw [if_neg (by rw [hsq]; exact ne_of_gt hAr)]
    rw [hsq]
    push_cast
    rw [neg_div, div_self (ne_of_gt hAr)]
  · -- constant neighbor vector: undefined for every mean argument
    intro ur nr ob marg c hconst
    rcases eq_or_ne ob [] with rfl | hne
    · rw [pearsonCorrelation]
      simp
    · rw [pearsonCorrelation_of_ne_nil ur nr ob marg hne]
      have hvne : overlapVals nr ob ≠ [] := by
        intro h
        apply hne
        have hl := congrArg List.length h
        rw [overlapVals, List.length_map] at hl
        exact List.eq_nil_of_length_eq_zero (by simpa using hl)
      have hval : ∀ v ∈ overlapVals nr ob, v = c := by
        intro v hv
        obtain ⟨b, hb, rfl⟩ := List.mem_map.mp hv
        exact hconst b hb
      rw [meanOfVals_const _ c hvne hval, devSumSq_eq_zero_of_const _ c hval]
      rw [if_pos (by norm_num)]
  · -- constant user vector under the default mean: undefined
    intro ur nr ob c hconst
    rcases eq_or_ne ob [] with rfl | hne
    · rw [pearsonCorrelation]
      simp
    · rw [pearsonCorrelation_of_ne_nil ur nr ob none hne]
      simp only [Option.getD_none]
      have hvne : overlapVals ur ob ≠ [] := by
        intro h
        apply hne
        have hl := congrArg List.length h
        rw [overlapVals, List.length_map] at hl
        exact List.eq_nil_of_length_eq_zero (by simpa using hl)
      have hval : ∀ v ∈ overlapVals ur ob, v = c := by
        intro v hv
        obtain ⟨b, hb, rfl⟩ := List.mem_map.mp hv
        exact hconst b hb
      rw [meanOfVals_const _ c hvne hval, devSumSq_eq_zero_of_const _ c hval]
      rw [if_pos (by norm_num)]
  · -- an undefined correlation means the candidate neighbor is skipped
    intro cfg db userId nId hnone r hr hEq
    have h := (computeForUser_mem_elim cfg db userId r hr).2.2.2
    rw [hEq, hnone] at h
    exact Option.noConfusion h

/-- Witness for C2 amended at concrete two-book overlaps, including a
constant-neighbor candidate of dbConstNeighbor being skipped by
compute_for_user. -/
theorem pearson_policy_spec_witness :
    pearsonCorrelation [(1, 5), (2, 4)] [(1, 5), (2, 4)] [1, 2] none = some 1 ∧
    pearsonCorrelation [(1, 5), (2, 4)] [(1, 1), (2, 2)] [1, 2] none = some (-1) ∧
    pearsonCorrelation [(1, 5), (2, 4)] [(1, 3), (2, 3)] [1, 2] none = none ∧
    pearsonCorrelation [(1, 3), (2, 3)] [(1, 5), (2, 4)] [1, 2] none = none ∧
    (∀ r ∈ computeForUser pairCfg dbConstNeighbor 1, r.neighbor_id ≠ 2) := by
  obtain ⟨hA, hB, hC, hCu, hD⟩ := pearson_policy_spec
  refine ⟨?_, ?_, ?_, ?_, ?_⟩
  · exact hA _ _ _ (by decide) (by decide) (by decide)
  · refine hB [(1, 5), (2, 4)] [(1, 1), (2, 2)] [1, 2] 6 (by decide) ?_ (by decide)
    intro b hb
    fin_cases hb
    · rw [show ratingOf [(1, 1), (2, 2)] 1 = 1 by decide,
        show ratingOf [(1, 5), (2, 4)] 1 = 5 by decide]
      norm_num
    · rw [show ratingOf [(1, 1), (2, 2)] 2 = 2 by decide,
        show ratingOf [(1, 5), (2, 4)] 2 = 4 by decide]
      norm_num
  · exact hC _ _ _ none 3 (by decide)
  · exact hCu _ _ _ 3 (by decide)
  · exact hD pairCfg dbConstNeighbor 1 2
      (hC (getUserRatings dbConstNeighbor 1) (getUserRatings dbConstNeighbor 2)
        (overlapBooksOf dbConstNeighbor 1 2) (some (userMeanOf dbConstNeighbor 1)) 3
        (by decide))

/-- Concrete Pearson evaluation inside compute_for_user on dbConstOverlap:
the user's overlap values are the constant 5, yet with the global mean 11/3
the correlation is defined and equal to 0. -/
theorem pearson_dbConstOverlap_eval :
    pearsonCorrelation (getUserRatings dbConstOverlap 1) (getUserRatings dbConstOverlap 2)
      (overlapBooksOf dbConstOverlap 1 2) (some (userMeanOf dbConstOverlap 1)) = some 0 := by
  have hur : getUserRatings dbConstOverlap 1 = [(1, 5), (2, 5), (3, 1)] := by decide
  have hnr : getUserRatings dbConstOverlap 2 = [(1, 1), (2, 2)] := by decide
  have hob : overlapBooksOf dbConstOverlap 1 2 = [1, 2] := by decide
  have hmean : userMeanOf dbConstOverlap 1 = 11 / 3 := by
    rw [userMeanOf, hur]
    norm_num
  rw [hur, hnr, hob, hmean]
  rw [pearsonCorrelation_of_ne_nil _ _ _ _ (by simp)]
  have hov : overlapVals [(1, 5), (2, 5), (3, 1)] [1, 2] = [5, 5] := by decide
  have hnv : overlapVals [(1, 1), (2, 2)] [1, 2] = [1, 2] := by decide
  rw [hov, hnv]
  simp only [Option.getD_some]
  have hnm : meanOfVals [1, 2] = 3 / 2 := by
    rw [meanOfVals]
    norm_num
  rw [hnm]
  have hnum : pearsonNumerator [5, 5] [1, 2] (11 / 3) (3 / 2) = 0 := by
    rw [pearsonNumerator]
    norm_num [List.zip_cons_cons]
  have hA : devSumSq [5, 5] (11 / 3) = 32 / 9 := by
    rw [devSumSq]
    norm_num
  have hB : devSumSq [1, 2] (3 / 2) = 1 / 2 := by
    rw [devSumSq]
    norm_num
  rw [hnum, hA, hB]
  have h1 : (0 : ℝ) < Real.sqrt (((32 : ℚ) / 9 : ℚ) : ℝ) :=
    Real.sqrt_pos.mpr (by norm_num)
  have h2 : (0 : ℝ) < Real.sqrt (((1 : ℚ) / 2 : ℚ) : ℝ) :=
    Real.sqrt_pos.mpr (by norm_num)
  rw [if_neg (ne_of_gt (mul_pos h1 h2))]
  norm_num

/-- Concrete run of compute_for_user on dbConstOverlap: candidate 2 is kept
with raw similarity 0 rather than skipped. -/
theorem computeForUser_dbConstOverlap :
    computeForUser pairCfg dbConstOverlap 1 = [⟨1, 2, 0, 2, 0⟩] := by
  have hlen : ¬ ((getUserRatings dbConstOverlap 1).length < pairCfg.minOverlap) := by decide
  have hcand : getCandidateUsers dbConstOverlap 1 (userBooksOf dbConstOverlap 1)
      pairCfg.minOverlap = [2] := by decide
  have hnl : ¬ ((2 : Nat) < pairCfg.minOverlap) := by decide
  have hcount : (overlapBooksOf dbConstOverlap 1 2).length = 2 := by decide
  have hadj : adjustedSimilarity 0 2 pairCfg.shrinkageFactor = 0 := by
    rw [adjustedSimilarity]
    norm_num
  simp only [computeForUser, if_neg hlen, hcand, List.filterMap_cons, List.filterMap_nil,
    hcount, if_neg hnl, pearson_dbConstOverlap_eval, hadj]
  rw [sortByAdjustedDesc, List.mergeSort_singleton]
  rfl

/-- C2 counterexample: in dbConstOverlap the user's rating values over the
overlap with neighbor 2 are constant (both 5), yet the correlation computed
by compute_for_user (with the user's global mean 11/3) is some 0 rather than
None, and the candidate is kept in the result list with raw similarity 0
instead of being silently skipped. -/
theorem pearson_constant_counterexample :
    (∀ b ∈ overlapBooksOf dbConstOverlap 1 2,
      ratingOf (getUserRatings dbConstOverlap 1) b = 5) ∧
    pearsonCorrelation (getUserRatings dbConstOverlap 1) (getUserRatings dbConstOverlap 2)
      (overlapBooksOf dbConstOverlap 1 2) (some (userMeanOf dbConstOverlap 1)) = some 0 ∧
    computeForUser pairCfg dbConstOverlap 1 = [⟨1, 2, 0, 2, 0⟩] :=
  ⟨by decide, pearson_dbConstOverlap_eval, computeForUser_dbConstOverlap⟩

/-- C5: every similarity edge produced for persistence has overlap_count at
least the configured min_overlap, on both the single-user path and the batch
path; edges produced by the batch path additionally have strictly positive
raw similarity. -/
theorem persisted_edge_invariants (cfg : SimConfig) (db : RatingsDB)
    (userId userIdx : Nat) (userIds : List Nat) (simRow : List ℝ)
    (rowIndices : List (List Nat)) :
    (∀ r ∈ computeForUser cfg db userId, cfg.minOverlap ≤ r.overlap_count) ∧
    (∀ r ∈ extractUserSimilarities cfg userId userIdx userIds simRow rowIndices,
      cfg.minOverlap ≤ r.overlap_count ∧ 0 < r.raw_similarity) :=
  ⟨fun r hr => (computeForUser_mem_elim cfg db userId r hr).2.1,
   fun r hr => extractUserSimilarities_mem_elim cfg userId userIdx userIds simRow
     rowIndices r hr⟩

/-- Concrete batch extraction: user index 0 against one neighbor of
similarity 1 sharing five books. -/
theorem extractUserSimilarities_concrete :
    extractUserSimilarities defaultSimConfig 1 0 [1, 2] [0, 1]
      [[0, 1, 2, 3, 4], [0, 1, 2, 3, 4]] = [⟨1, 2, 1, 5, 1 / 3⟩] := by
  have hadj : adjustedSimilarity 1 5 10 = 1 / 3 := by
    rw [adjustedSimilarity]
    norm_num
  have hcount : (([0, 1, 2, 3, 4] : List Nat).filter
      (fun b => decide (b ∈ ([0, 1, 2, 3, 4] : List Nat)))).length = 5 := by decide
  simp only [extractUserSimilarities, defaultSimConfig, List.enum, List.enumFrom,
    List.filterMap_cons, List.filterMap_nil, List.getD, hcount]
  norm_num [hadj]
  rw [sortByAdjustedDesc, List.mergeSort_singleton]
  rfl

/-- Witness for C5: the concrete single-user edge of dbConstOverlap has
overlap at least min_overlap, and the concrete batch edge additionally has
positive raw similarity. -/
theorem persisted_edge_invariants_witness :
    pairCfg.minOverlap ≤ (⟨1, 2, 0, 2, 0⟩ : SimilarityResult).overlap_count ∧
    (defaultSimConfig.minOverlap ≤ (⟨1, 2, 1, 5, 1 / 3⟩ : SimilarityResult).overlap_count ∧
      0 < (⟨1, 2, 1, 5, 1 / 3⟩ : SimilarityResult).raw_similarity) :=
  ⟨(persisted_edge_invariants pairCfg dbConstOverlap 1 0 [] [] []).1 _
      (by rw [computeForUser_dbConstOverlap]; exact List.mem_singleton_self _),
   (persisted_edge_invariants defaultSimConfig dbFew 1 0 [1, 2] [0, 1]
        [[0, 1, 2, 3, 4], [0, 1, 2, 3, 4]]).2 _
      (by rw [extractUserSimilarities_concrete]; exact List.mem_singleton_self _)⟩

end BookRecs
